import Mathlib

/-!
Shallow embedding of `src/web_crawl.py` (nashdean/basic-web-crawler).

External collaborators of the script are modelled as parameters or as
already-structured data, never stubbed silently:
 * HTTP fetching (`aiohttp`) is a parameter `net : String → Option Doc`
   (`none` = transport error or non-2xx status, mirroring `fetch`'s
   `except` branch returning `(url, None)`);
 * HTML parsing (`BeautifulSoup`) is represented by the parsed document
   `Doc`: the ordered heading/paragraph elements that
   `soup.find_all([h1..h6, p])` would yield and the `a[href]` anchors that
   `soup.find_all('a', href=True)` would yield;
 * spaCy named-entity detection (`extract_names`) is a parameter
   `detect : String → List String` giving the PERSON entity texts found in
   the flattened page text (the keys of the Python `Counter`);
 * `urllib.parse.urljoin` is a parameter `join : String → String → String`.
Python `str` operations are re-implemented over `List Char` (the strings in
play are ASCII) so that every definition reduces inside the kernel:
`lowerStr` models `str.lower()`, `trimStr` models `str.strip()` /
`get_text(strip=True)`, `stripSpaces` models `str.replace(" ", "")`, and
`subMatch` models Python's substring test `pat in s`.
-/

namespace WebCrawl

/-- `leadMatch p s` is true iff the character list `p` is a leading segment
of `s` (used to model Python `str.startswith` and as the inner loop of the
substring test). -/
def leadMatch : List Char → List Char → Bool
  | [], _ => true
  | _ :: _, [] => false
  | a :: as, b :: bs => a == b && leadMatch as bs

/-- `subMatch p s` is true iff `p` occurs contiguously inside `s`:
Python's `p in s` on strings. -/
def subMatch (p s : List Char) : Bool :=
  match s with
  | [] => p.isEmpty
  | c :: rest => leadMatch p (c :: rest) || subMatch p rest

/-- Python `pat in s` for strings. -/
def pyIn (pat s : String) : Bool :=
  subMatch pat.toList s.toList

/-- The mathematical meaning of the substring test: some split
`a ++ pat ++ b` of `s`. -/
def SubstrP (pat s : String) : Prop :=
  ∃ a b : List Char, a ++ pat.toList ++ b = s.toList

/-- `str.lower()` on the ASCII strings the crawler handles. -/
def lowerStr (s : String) : String :=
  String.mk (s.toList.map Char.toLower)

/-- Whitespace stripped by Python `str.strip()` (the characters that occur
in this development). -/
def isWs (c : Char) : Bool :=
  c == ' ' || c == '\t' || c == '\n' || c == '\r'

/-- `str.strip()` / BeautifulSoup `get_text(strip=True)` on a single text
node: leading and trailing whitespace removed. -/
def trimStr (s : String) : String :=
  String.mk (((s.toList.dropWhile isWs).reverse.dropWhile isWs).reverse)

/-- `name.replace(" ", "")`: with a one-character pattern and empty
replacement this removes every space. -/
def stripSpaces (s : String) : String :=
  String.mk (s.toList.filter (fun c => !(c == ' ')))

theorem leadMatch_iff : ∀ p s : List Char, leadMatch p s = true ↔ ∃ r, p ++ r = s := by
  intro p
  induction p with
  | nil => intro s; simp [leadMatch]
  | cons a as ih =>
    intro s
    cases s with
    | nil => simp [leadMatch]
    | cons b bs =>
      simp only [leadMatch, Bool.and_eq_true, beq_iff_eq, ih]
      constructor
      · rintro ⟨rfl, r, rfl⟩
        exact ⟨r, rfl⟩
      · rintro ⟨r, h⟩
        injection h with h1 h2
        exact ⟨h1, r, h2⟩

theorem subMatch_iff : ∀ s p : List Char, subMatch p s = true ↔ ∃ a b, a ++ p ++ b = s := by
  intro s
  induction s with
  | nil =>
    intro p
    simp only [subMatch]
    cases p <;> simp
  | cons c rest ih =>
    intro p
    simp only [subMatch, Bool.or_eq_true, leadMatch_iff, ih]
    constructor
    · rintro (⟨r, h⟩ | ⟨a, b, h⟩)
      · exact ⟨[], r, by simpa using h⟩
      · exact ⟨c :: a, b, by simp [h]⟩
    · rintro ⟨a, b, h⟩
      cases a with
      | nil => exact Or.inl ⟨b, by simpa using h⟩
      | cons a0 as =>
        injection h with h1 h2
        exact Or.inr ⟨as, b, h2⟩

theorem pyIn_iff (pat s : String) : pyIn pat s = true ↔ SubstrP pat s := by
  unfold pyIn SubstrP
  exact subMatch_iff s.toList pat.toList

/-! ## Parsed HTML (the output of BeautifulSoup on the fetched content) -/

/-- One element of `soup.find_all(['h1', ..., 'h6', 'p'])`, in document
order: a heading of some level with its text, or a paragraph. -/
inductive Elem where
  | header : Nat → String → Elem
  | para : String → Elem

/-- One `<a href=...>` element of `soup.find_all('a', href=True)`: its raw
`href` attribute and its visible text (`a.get_text()` before the
strip/lower the filter applies). -/
structure Anchor where
  href : String
  text : String

/-- A parsed HTML document: the heading/paragraph elements and the anchors
in document order. -/
structure Doc where
  elements : List Elem
  anchors : List Anchor

/-! ## `extract_structured_text` and `flatten_text` (lines 34-50) -/

/-- The `headers_tags` dict of line 69: heading tag level to marker. -/
def headers_tags : List (Nat × String) :=
  [(1, "# "), (2, "## "), (3, "### "), (4, "#### "), (5, "##### "), (6, "###### ")]

/-- `headers_tags[element.name]`: the marker of a heading level (find_all
only yields levels 1-6, on which the lookup always succeeds). -/
def headerMark (lvl : Nat) : String :=
  ((headers_tags.find? (fun p => p.1 == lvl)).map Prod.snd).getD ""

/-- One step of the loop of lines 39-45, over a head-first accumulator: a
heading opens a new block `headers_tags[name] + text.strip()`; a paragraph
is appended (stripped) to the most recent block, and dropped when no
heading has been seen yet (`current_header is None`).  The Python code
appends blocks at the end of `structured_text` and mutates its last entry;
keeping the most recent block at the head and reversing once at the end in
`extract_structured_text` yields the same list. -/
def extractStep (acc : List (String × List String)) (e : Elem) : List (String × List String) :=
  match e, acc with
  | .header lvl t, _ => (headerMark lvl ++ trimStr t, []) :: acc
  | .para _, [] => []
  | .para t, (h, ps) :: rest => (h, ps ++ [trimStr t]) :: rest

/-- `extract_structured_text(soup, headers_tags)` (lines 34-47) over the
document-ordered elements. -/
def extract_structured_text (elems : List Elem) : List (String × List String) :=
  (elems.foldl extractStep []).reverse

/-- `flatten_text` (lines 49-50):
`'\n\n'.join('\n'.join([header] + paras) for header, paras in structured_text)`. -/
def flatten_text (structured : List (String × List String)) : String :=
  String.intercalate "\n\n" (structured.map (fun b => String.intercalate "\n" (b.1 :: b.2)))

/-! ## `extract_and_filter_links` (lines 16-17, 52-61) -/

/-- The block-list of line 17. -/
def FILTER_KEYWORDS : List String :=
  ["twitter.com", "x.com", "facebook.com", "mailto:", "intent/tweet"]

/-- `links.add(href)`: Python-set insertion, modelled on an
insertion-ordered duplicate-free list. -/
def setInsert (x : String) (l : List String) : List String :=
  if x ∈ l then l else l ++ [x]

/-- The acceptance test of lines 55-59 for one anchor: resolve the href
against the page url (`urljoin`, the `join` parameter), lowercase it, and
lowercase the stripped anchor text; accept iff some name occurs in the
lowered href or in the lowered text, and no block-list keyword occurs in
the lowered href. -/
def acceptLink (join : String → String → String) (url : String) (names : List String)
    (a : Anchor) : Bool :=
  (names.any (fun n => pyIn n (lowerStr (join url a.href)) || pyIn n (lowerStr (trimStr a.text)))) &&
  !(FILTER_KEYWORDS.any (fun k => pyIn k (lowerStr (join url a.href))))

/-- `extract_and_filter_links(soup, url, most_common_names)` (lines 52-61):
the set of resolved hrefs of the anchors that pass `acceptLink`. -/
def extract_and_filter_links (join : String → String → String) (anchors : List Anchor)
    (url : String) (names : List String) : List String :=
  anchors.foldl
    (fun links a => if acceptLink join url names a then setInsert (join url a.href) links else links)
    []

/-! ## `process_page_content` (lines 63-83) -/

/-- The site-name regex of line 77 after the scheme and optional `www.`:
`(?P<base_url>[a-zA-Z0-9]*)\.` — the maximal alphanumeric run, which must
be followed by a literal dot (backtracking a shorter run always leaves an
alphanumeric, never a dot, in front of `\.`, so the maximal run is the
only candidate). -/
def siteNameFrom (l : List Char) : Option String :=
  match l.drop (l.takeWhile Char.isAlphanum).length with
  | '.' :: _ => some (lowerStr (String.mk (l.takeWhile Char.isAlphanum)))
  | _ => none

/-- `re.match(r'(http|https):\/\/(www\.)?(?P<base_url>[a-zA-Z0-9]*)\.', url)['base_url'].lower()`
modelled faithfully, including the backtracking of the optional greedy
`(www\.)?` group: `none` when the regex does not match, in which case the
Python subscript of `None` raises `TypeError`. -/
def siteName (url : String) : Option String :=
  let cs := url.toList
  let afterScheme : Option (List Char) :=
    if leadMatch ("http://").toList cs then some (cs.drop 7)
    else if leadMatch ("https://").toList cs then some (cs.drop 8)
    else none
  match afterScheme with
  | none => none
  | some rest =>
    if leadMatch ("www.").toList rest then
      match siteNameFrom (rest.drop 4) with
      | some b => some b
      | none => siteNameFrom rest
    else siteNameFrom rest

/-- Line 76: `set(name.replace(" ", "").lower() for name in names_counter.keys())` —
the normalized forms of the detected PERSON entities, as a duplicate-free
list. -/
def normalized_names (detected : List String) : List String :=
  (detected.map (fun n => lowerStr (stripSpaces n))).dedup

/-- Line 78: `most_common_names.discard(site_name)`. -/
def exclude_site (names : List String) (sn : String) : List String :=
  names.filter (fun n => n != sn)

/-- `process_page_content(url, content)` (lines 63-83).  `content = none`
models falsy or non-`str` content (line 64 returns `(None, [])`, modelled
as `(none, [])`).  On parsed content the flattened text is always a
string, so it is returned as `some flat`.  When the site-name regex does
not match the url, line 77 subscripts `None` and raises `TypeError`:
modelled as `Except.error ()`. -/
def process_page_content (detect : String → List String) (join : String → String → String)
    (url : String) (content : Option Doc) : Except Unit (Option String × List String) :=
  match content with
  | none => .ok (none, [])
  | some doc =>
    let flat := flatten_text (extract_structured_text doc.elements)
    match siteName url with
    | none => .error ()
    | some sn =>
      .ok (some flat, extract_and_filter_links join doc.anchors url (exclude_site (normalized_names (detect flat)) sn))

/-! ## `fetch` and `scrape_text_and_links` (lines 85-118) -/

/-- `fetch(session, url)` (lines 85-94): `(url, content)` on success,
`(url, None)` on any error (logged, not surfaced).  The HTTP layer and the
later BeautifulSoup parse are fused into `net`, which returns the parsed
document of the fetched HTML. -/
def fetch (net : String → Option Doc) (url : String) : String × Option Doc :=
  (url, net url)

/-- `list(executor.map(process_page_content, urls, contents))` in
`process_contents` (lines 96-99): results in input order; the first
exception raised by an element aborts the whole `list(...)` call. -/
def mapExcept (f : α → Except Unit β) : List α → Except Unit (List β)
  | [] => .ok []
  | a :: l =>
    match f a with
    | .error e => .error e
    | .ok b =>
      match mapExcept f l with
      | .error e => .error e
      | .ok bs => .ok (b :: bs)

/-- `scrape_text_and_links(urls)` (lines 101-118): gather the fetches in
input order, keep only the responses whose content `is not None`
(lines 111-112), and process those — so failed fetches are dropped from
the result list, not represented in it. -/
def scrape_text_and_links (detect : String → List String) (join : String → String → String)
    (net : String → Option Doc) (urls : List String) :
    Except Unit (List (Option String × List String)) :=
  mapExcept (fun r => process_page_content detect join r.1 r.2)
    ((urls.map (fetch net)).filter (fun r => r.2.isSome))

/-! ## `crawl_links` (lines 182-232)

The recursive crawler threads mutable state: the `visited` set (a Python
set of urls, modelled as the list of urls in insertion order, most recent
first), the global `links_remaining` semaphore's count, and the files
written by `save_text_to_file`.  Two traces are added so that the claims
are observable: `fetched` logs every call of
`asyncio.run(scrape_text_and_links([url]))` together with the depth at
which it was issued, and `releases` logs every
`links_remaining.release(len(links))` with its count.  Saved files are
keyed by the url they came from (the actual filename derivation from
`urlparse(url).path` adds nothing to the claims below). -/

structure CrawlState where
  visited : List String
  counter : Int
  savedFiles : List (String × String)
  fetched : List (String × Nat)
  releases : List (String × Nat)
deriving DecidableEq

/-- The state of a fresh top-level invocation (`visited=None` initializes
an empty set; the semaphore starts at count 0). -/
def initState : CrawlState := ⟨[], 0, [], [], []⟩

/-- What `asyncio.run(scrape_text_and_links([url]))` does for one url, as
the crawler observes it:
 * `fetchFail` — the fetch returned `(url, None)`, so `results == []` and
   line 199 returns early;
 * `procError` — `process_page_content` raised (see `siteName`), the
   exception propagates out of `asyncio.run` and aborts the crawl;
 * `ok text links` — `results[0] == (text, links)`.  A falsy `text`
   (`None` or `""`) is represented by `""`: both skip the save of
   line 206 and carry `links = []` respectively whatever the filter
   returned. -/
inductive PageOutcome where
  | fetchFail
  | procError
  | ok (text : String) (links : List String)

/-- Lines 193-195: `visited.add(starting_url)` followed by the fetch
attempt (logged with its depth). -/
def visitMark (url : String) (depth : Nat) (s : CrawlState) : CrawlState :=
  { s with visited := url :: s.visited, fetched := s.fetched ++ [(url, depth)] }

/-- Lines 203-209: `if text:` save the page, else only log. -/
def saveStep (url text : String) (s : CrawlState) : CrawlState :=
  if text = "" then s else { s with savedFiles := s.savedFiles ++ [(url, text)] }

/-- Lines 203-217: the save, then `if links: links_remaining.release(len(links))`. -/
def recordPage (url text : String) (links : List String) (s : CrawlState) : CrawlState :=
  if links = [] then saveStep url text s
  else
    { saveStep url text s with
        counter := (saveStep url text s).counter + links.length,
        releases := (saveStep url text s).releases ++ [(url, links.length)] }

/-- Lines 229-232, applied to the outcome of the recursion loop: an
exception propagates past the decrement; otherwise
`if links: links_remaining.acquire(len(links))` runs.
`threading.Semaphore.acquire(blocking=True, timeout=None)` takes no count:
`len(links)` is passed as the truthy `blocking` flag, so ONE permit is
acquired — the counter decreases by 1, not by `len(links)`. -/
def finishNode (links : List String) (p : CrawlState × Bool) : CrawlState × Bool :=
  if p.2 then p
  else if links = [] then p
  else ({ p.1 with counter := p.1.counter - 1 }, false)

/-- The body of `crawl_links` (lines 182-232), with an explicit structural
bound `gas`.  The wrapper `crawl_links` below always passes
`gas = maxDepth + 1 - depth`, and the recursion calls `crawlGas` at
`depth + 1` with `gas - 1`, so the bound is preserved; `gas = 0` holds
exactly when `depth > maxDepth`, where the guard of line 189 returns with
no side effects — so the `gas = 0` base case coincides with the source's
guard and the embedding computes the same result as the Python recursion
at every reachable call.
Per node: guard (line 189), `visited.add` + fetch (lines 193-195), early
return on `results == []` (line 199), save + release (lines 203-217),
then `if new_depth <= max_depth:` recurse over the links in order
(lines 220-227, an exception aborting the loop), and finally the
decrement (lines 229-232). -/
def crawlGas (env : String → PageOutcome) : Nat → String → Nat → Nat → CrawlState → CrawlState × Bool
  | 0, _, _, _, s => (s, false)
  | Nat.succ gas, url, depth, maxDepth, s =>
    if depth > maxDepth ∨ url ∈ s.visited then (s, false)
    else
      match env url with
      | .fetchFail => (visitMark url depth s, false)
      | .procError => (visitMark url depth s, true)
      | .ok text links =>
        finishNode links
          (if depth + 1 ≤ maxDepth then
            links.foldl
              (fun q link => if q.2 then q else crawlGas env gas link (depth + 1) maxDepth q.1)
              (recordPage url text links (visitMark url depth s), false)
          else (recordPage url text links (visitMark url depth s), false))

/-- `crawl_links(starting_url, current_depth, max_depth, visited)`
(lines 182-232) over an explicit state; the second component is `true`
when an exception propagated out of the call. -/
def crawl_links (env : String → PageOutcome) (url : String) (depth maxDepth : Nat)
    (s : CrawlState) : CrawlState × Bool :=
  crawlGas env (maxDepth + 1 - depth) url depth maxDepth s

/-! ## Invariants of the crawler -/

/-- The crawl invariant at bound `m`: no url was fetched twice, every
fetched url is already in the visited set, and every fetch happened at a
depth within the bound. -/
def Inv (m : Nat) (s : CrawlState) : Prop :=
  ((s.fetched.map Prod.fst).Nodup) ∧
  (∀ p ∈ s.fetched, p.1 ∈ s.visited) ∧
  (∀ p ∈ s.fetched, p.2 ≤ m)

/-- How one step of the crawler extends the state: the invariant is
preserved and the visited set only grows. -/
def ExtOk (m : Nat) (s r : CrawlState) : Prop :=
  (Inv m s → Inv m r) ∧ (∀ u ∈ s.visited, u ∈ r.visited)

theorem extOk_refl (m : Nat) (s : CrawlState) : ExtOk m s s :=
  ⟨id, fun _ h => h⟩

theorem extOk_trans {m : Nat} {s t r : CrawlState} (h1 : ExtOk m s t) (h2 : ExtOk m t r) :
    ExtOk m s r :=
  ⟨fun hs => h2.1 (h1.1 hs), fun u hu => h2.2 u (h1.2 u hu)⟩

theorem extOk_of_fields {m : Nat} {s r : CrawlState} (hv : r.visited = s.visited)
    (hf : r.fetched = s.fetched) : ExtOk m s r := by
  constructor
  · intro hs
    unfold Inv at hs ⊢
    rw [hv, hf]
    exact hs
  · intro u hu
    rw [hv]
    exact hu

theorem visitMark_ext {m : Nat} (url : String) (depth : Nat) (s : CrawlState)
    (hd : depth ≤ m) (hv : url ∉ s.visited) : ExtOk m s (visitMark url depth s) := by
  constructor
  · rintro ⟨h1, h2, h3⟩
    refine ⟨?_, ?_, ?_⟩
    · simp only [visitMark, List.map_append, List.map_cons, List.map_nil]
      rw [List.nodup_append]
      refine ⟨h1, by simp, ?_⟩
      intro a ha hb
      simp only [List.mem_singleton] at hb
      subst hb
      rcases List.mem_map.mp ha with ⟨p, hp, hpa⟩
      exact hv (hpa ▸ h2 p hp)
    · intro p hp
      simp only [visitMark, List.mem_append, List.mem_singleton] at hp
      rcases hp with hp | hp
      · exact List.mem_cons_of_mem _ (h2 p hp)
      · subst hp
        exact List.mem_cons_self _ _
    · intro p hp
      simp only [visitMark, List.mem_append, List.mem_singleton] at hp
      rcases hp with hp | hp
      · exact h3 p hp
      · subst hp
        exact hd
  · intro u hu
    exact List.mem_cons_of_mem _ hu

theorem recordPage_visited (url text : String) (links : List String) (s : CrawlState) :
    (recordPage url text links s).visited = s.visited := by
  unfold recordPage saveStep
  split <;> split <;> rfl

theorem recordPage_fetched (url text : String) (links : List String) (s : CrawlState) :
    (recordPage url text links s).fetched = s.fetched := by
  unfold recordPage saveStep
  split <;> split <;> rfl

theorem finishNode_visited (links : List String) (p : CrawlState × Bool) :
    (finishNode links p).1.visited = p.1.visited := by
  unfold finishNode
  split <;> [rfl; (split <;> rfl)]

theorem finishNode_fetched (links : List String) (p : CrawlState × Bool) :
    (finishNode links p).1.fetched = p.1.fetched := by
  unfold finishNode
  split <;> [rfl; (split <;> rfl)]

/-! Equation lemmas of `crawlGas` at positive gas, one per outcome. -/

theorem crawlGas_guard {env : String → PageOutcome} {gas : Nat} {url : String}
    {depth maxDepth : Nat} {s : CrawlState} (h : depth > maxDepth ∨ url ∈ s.visited) :
    crawlGas env (gas + 1) url depth maxDepth s = (s, false) := by
  simp only [crawlGas]
  rw [if_pos h]

theorem crawlGas_fetchFail {env : String → PageOutcome} {gas : Nat} {url : String}
    {depth maxDepth : Nat} {s : CrawlState} (hg : ¬(depth > maxDepth ∨ url ∈ s.visited))
    (he : env url = .fetchFail) :
    crawlGas env (gas + 1) url depth maxDepth s = (visitMark url depth s, false) := by
  simp only [crawlGas]
  rw [if_neg hg, he]

theorem crawlGas_procError {env : String → PageOutcome} {gas : Nat} {url : String}
    {depth maxDepth : Nat} {s : CrawlState} (hg : ¬(depth > maxDepth ∨ url ∈ s.visited))
    (he : env url = .procError) :
    crawlGas env (gas + 1) url depth maxDepth s = (visitMark url depth s, true) := by
  simp only [crawlGas]
  rw [if_neg hg, he]

theorem crawlGas_ok {env : String → PageOutcome} {gas : Nat} {url : String}
    {depth maxDepth : Nat} {s : CrawlState} {text : String} {links : List String}
    (hg : ¬(depth > maxDepth ∨ url ∈ s.visited)) (he : env url = .ok text links) :
    crawlGas env (gas + 1) url depth maxDepth s =
      finishNode links
        (if depth + 1 ≤ maxDepth then
          links.foldl
            (fun q link => if q.2 then q else crawlGas env gas link (depth + 1) maxDepth q.1)
            (recordPage url text links (visitMark url depth s), false)
        else (recordPage url text links (visitMark url depth s), false)) := by
  simp only [crawlGas]
  rw [if_neg hg, he]

/-- The recursion loop of lines 224-227 preserves `ExtOk` when each
recursive call does. -/
theorem crawlFold_ext {env : String → PageOutcome} {gas m d : Nat}
    (H : ∀ url s, ExtOk m s (crawlGas env gas url d m s).1) :
    ∀ (links : List String) (q : CrawlState × Bool),
      ExtOk m q.1
        ((links.foldl (fun q link => if q.2 then q else crawlGas env gas link d m q.1) q).1) := by
  intro links
  induction links with
  | nil => intro q; exact extOk_refl m q.1
  | cons l ls ih =>
    intro q
    rw [List.foldl_cons]
    refine extOk_trans ?_ (ih _)
    by_cases hq : q.2
    · simp only [if_pos hq]
      exact extOk_refl m q.1
    · simp only [if_neg hq]
      exact H l q.1

/-- Any call of the crawler preserves the crawl invariant and only grows
the visited set. -/
theorem crawlGas_ext (env : String → PageOutcome) :
    ∀ (gas : Nat) (url : String) (d m : Nat) (s : CrawlState),
      ExtOk m s (crawlGas env gas url d m s).1 := by
  intro gas
  induction gas with
  | zero => intro url d m s; exact extOk_refl m s
  | succ gas ih =>
    intro url d m s
    by_cases hg : d > m ∨ url ∈ s.visited
    · rw [crawlGas_guard hg]
      exact extOk_refl m s
    · have hd : d ≤ m := by
        rcases not_or.mp hg with ⟨h1, _⟩
        omega
      have hv : url ∉ s.visited := (not_or.mp hg).2
      cases he : env url with
      | fetchFail =>
        rw [crawlGas_fetchFail hg he]
        exact visitMark_ext url d s hd hv
      | procError =>
        rw [crawlGas_procError hg he]
        exact visitMark_ext url d s hd hv
      | ok text links =>
        rw [crawlGas_ok hg he]
        have hbase : ExtOk m s (recordPage url text links (visitMark url d s)) :=
          extOk_trans (visitMark_ext url d s hd hv)
            (extOk_of_fields (recordPage_visited ..) (recordPage_fetched ..))
        by_cases hrec : d + 1 ≤ m
        · rw [if_pos hrec]
          refine extOk_trans (extOk_trans hbase ?_) (extOk_of_fields (finishNode_visited ..) (finishNode_fetched ..))
          exact crawlFold_ext (fun url s => ih url (d + 1) m s) links
            (recordPage url text links (visitMark url d s), false)
        · rw [if_neg hrec]
          exact extOk_trans hbase (extOk_of_fields (finishNode_visited ..) (finishNode_fetched ..))

theorem Inv_init (m : Nat) : Inv m initState := by
  refine ⟨List.nodup_nil, ?_, ?_⟩ <;> intro p hp <;> simp [initState] at hp

/-! ## Lemmas about the link filter -/

theorem mem_setInsert {y x : String} {l : List String} :
    y ∈ setInsert x l ↔ y = x ∨ y ∈ l := by
  unfold setInsert
  split
  · rename_i h
    constructor
    · exact Or.inr
    · rintro (rfl | hy)
      · exact h
      · exact hy
  · simp [List.mem_append, or_comm]

theorem nodup_setInsert {x : String} {l : List String} (h : l.Nodup) :
    (setInsert x l).Nodup := by
  unfold setInsert
  split
  · exact h
  · rename_i hx
    rw [List.nodup_append]
    refine ⟨h, by simp, ?_⟩
    intro a ha hb
    simp only [List.mem_singleton] at hb
    subst hb
    exact hx ha

theorem acceptLink_iff (join : String → String → String) (url : String)
    (names : List String) (a : Anchor) :
    acceptLink join url names a = true ↔
      (∃ n, n ∈ names ∧
        (SubstrP n (lowerStr (join url a.href)) ∨ SubstrP n (lowerStr (trimStr a.text)))) ∧
      (∀ k, k ∈ FILTER_KEYWORDS → ¬ SubstrP k (lowerStr (join url a.href))) := by
  unfold acceptLink
  simp only [Bool.and_eq_true, List.any_eq_true, Bool.or_eq_true, pyIn_iff,
    Bool.not_eq_true', List.any_eq_false, Bool.not_eq_true]

theorem mem_extract_foldl (join : String → String → String) (url : String)
    (names : List String) :
    ∀ (anchors : List Anchor) (init : List String) (l : String),
      (l ∈ anchors.foldl
        (fun links a =>
          if acceptLink join url names a then setInsert (join url a.href) links else links)
        init) ↔
      l ∈ init ∨ ∃ a, a ∈ anchors ∧ acceptLink join url names a = true ∧ l = join url a.href := by
  intro anchors
  induction anchors with
  | nil => intro init l; simp
  | cons a as ih =>
    intro init l
    rw [List.foldl_cons]
    by_cases h : acceptLink join url names a = true
    · rw [if_pos h, ih]
      constructor
      · rintro (h1 | ⟨x, hx, hax, rfl⟩)
        · rcases mem_setInsert.mp h1 with rfl | h1
          · exact Or.inr ⟨a, List.mem_cons_self a as, h, rfl⟩
          · exact Or.inl h1
        · exact Or.inr ⟨x, List.mem_cons_of_mem a hx, hax, rfl⟩
      · rintro (h1 | ⟨x, hx, hax, rfl⟩)
        · exact Or.inl (mem_setInsert.mpr (Or.inr h1))
        · rcases List.mem_cons.mp hx with rfl | hx
          · exact Or.inl (mem_setInsert.mpr (Or.inl rfl))
          · exact Or.inr ⟨x, hx, hax, rfl⟩
    · rw [if_neg h, ih]
      constructor
      · rintro (h1 | ⟨x, hx, hax, rfl⟩)
        · exact Or.inl h1
        · exact Or.inr ⟨x, List.mem_cons_of_mem a hx, hax, rfl⟩
      · rintro (h1 | ⟨x, hx, hax, rfl⟩)
        · exact Or.inl h1
        · rcases List.mem_cons.mp hx with rfl | hx
          · exact absurd hax h
          · exact Or.inr ⟨x, hx, hax, rfl⟩

theorem nodup_extract_foldl (join : String → String → String) (url : String)
    (names : List String) :
    ∀ (anchors : List Anchor) (init : List String), init.Nodup →
      (anchors.foldl
        (fun links a =>
          if acceptLink join url names a then setInsert (join url a.href) links else links)
        init).Nodup := by
  intro anchors
  induction anchors with
  | nil => intro init h; exact h
  | cons a as ih =>
    intro init h
    rw [List.foldl_cons]
    apply ih
    split
    · exact nodup_setInsert h
    · exact h

/-! ## Lemmas about `scrape_text_and_links` -/

theorem mapExcept_ok_length {α β : Type} {f : α → Except Unit β} :
    ∀ {l : List α} {rs : List β}, mapExcept f l = .ok rs → rs.length = l.length := by
  intro l
  induction l with
  | nil =>
    intro rs h
    simp only [mapExcept, Except.ok.injEq] at h
    subst h
    rfl
  | cons a l ih =>
    intro rs h
    simp only [mapExcept] at h
    split at h
    · exact Except.noConfusion h
    · split at h
      · exact Except.noConfusion h
      · rename_i bs hml
        simp only [Except.ok.injEq] at h
        subst h
        simp [ih hml]

theorem filter_map_fetch (net : String → Option Doc) :
    ∀ urls : List String,
      (urls.map (fetch net)).filter (fun r => r.2.isSome) =
        (urls.filter (fun u => (net u).isSome)).map (fun u => (u, net u)) := by
  intro urls
  induction urls with
  | nil => rfl
  | cons u us ih =>
    simp only [List.map_cons, List.filter_cons]
    by_cases h : (net u).isSome = true
    · simp only [fetch, h, if_true, List.map_cons, ih]
    · simp only [fetch, h, if_false, ih]
      simp [h]

theorem mapExcept_map {α β γ : Type} {f : β → Except Unit γ} {g : α → β} :
    ∀ l : List α, mapExcept f (l.map g) = mapExcept (fun a => f (g a)) l := by
  intro l
  induction l with
  | nil => rfl
  | cons a l ih => simp only [List.map_cons, mapExcept, ih]

/-- The pipeline, rephrased: exactly the successfully fetched urls get
processed, in input order. -/
theorem scrape_eq (detect : String → List String) (join : String → String → String)
    (net : String → Option Doc) (urls : List String) :
    scrape_text_and_links detect join net urls =
      mapExcept (fun u => process_page_content detect join u (net u))
        (urls.filter (fun u => (net u).isSome)) := by
  unfold scrape_text_and_links
  rw [filter_map_fetch, mapExcept_map]

/-! ## The crawl guard (shared by several claims) -/

theorem crawl_links_guard {env : String → PageOutcome} {url : String} {d m : Nat}
    {s : CrawlState} (h : d > m ∨ url ∈ s.visited) :
    crawl_links env url d m s = (s, false) := by
  unfold crawl_links
  cases hg : m + 1 - d with
  | zero => simp only [crawlGas]
  | succ k => exact crawlGas_guard h

/-! ## Concrete inputs used by the claims -/

/-- `urljoin` restricted to absolute hrefs, on which it is the identity. -/
def join0 : String → String → String := fun _ h => h

/-- A named-entity detector that finds nothing. -/
def detect0 : String → List String := fun _ => []

/-- A named-entity detector that always reports the single PERSON entity
`"Smith"`. -/
def detect7 : String → List String := fun _ => ["Smith"]

/-- A page on `smith.com` that mentions Smith and links to a url matched
only by the name `smith`. -/
def doc7 : Doc :=
  ⟨[Elem.header 1 "T", Elem.para "About Smith"], [⟨"https://smith.com/bio", "Smith"⟩]⟩

/-- A named-entity detector that always reports the single PERSON entity
`"Jean-Paul"`. -/
def detectJP : String → List String := fun _ => ["Jean-Paul"]

/-- A page on `www.jean-paul.com` that mentions Jean-Paul and links to a
url matched only by the name `jean-paul`. -/
def docJP : Doc :=
  ⟨[Elem.header 1 "T", Elem.para "About Jean-Paul"],
    [⟨"https://www.jean-paul.com/about", "Jean-Paul"⟩]⟩

/-- An anchor whose resolved href contains the normalized name. -/
def exAnchor1 : Anchor := ⟨"https://example.com/bio/johnsmith", "John Smith"⟩

/-- A tweet-intent share anchor (block-list hit on `x.com` and
`intent/tweet`). -/
def exAnchor2 : Anchor := ⟨"https://x.com/intent/tweet?text=johnsmith", "share"⟩

/-- A network on which every fetch fails. -/
def netFail : String → Option Doc := fun _ => none

/-- Pages for the depth-bound example: `a` links to `b`, `b` links to `c`,
every page has text `"t"`. -/
def envC2 : String → PageOutcome := fun u =>
  if u = "a" then .ok "t" ["b"] else if u = "b" then .ok "t" ["c"] else .ok "t" []

/-- Pages for the error-propagation example: the root page yields two
links; processing the first raises, the second is its sibling. -/
def envC4 : String → PageOutcome := fun u =>
  if u = "https://root.com/" then .ok "t" ["https://bad-host.com/x", "https://sibling.com/y"]
  else if u = "https://bad-host.com/x" then .procError
  else .ok "t" []

/-- Pages for the counter example: the root page `a` yields two links
`b`, `c`, which yield none. -/
def envC9 : String → PageOutcome := fun u =>
  if u = "a" then .ok "t" ["b", "c"] else .ok "t" []

/-- A network where every fetch fails. -/
def envW10 : String → PageOutcome := fun _ => PageOutcome.fetchFail

/-! ## The claims -/

/-- Claim C1: in one top-level crawl invocation (a fresh visited set), no
URL is fetched more than once, whatever the link structure: the trace of
fetch attempts contains no duplicate url.  (Once a url enters `visited`,
a later `crawl_links` call on it returns at the guard before fetching —
see `crawl_links_guard` — and this is what makes the trace duplicate-free.) -/
theorem claim1_no_url_fetched_twice (env : String → PageOutcome) (url : String) (m : Nat) :
    ((crawl_links env url 0 m initState).1.fetched.map Prod.fst).Nodup :=
  ((crawlGas_ext env (m + 1 - 0) url 0 m initState).1 (Inv_init m)).1

/-- Claim C2: every fetch of a crawl invocation with bound `maxDepth`
happens at a depth `≤ maxDepth`, so a link discovered on a page at depth
`maxDepth` is never fetched; concretely, with `maxDepth = 1` and pages
`a → b → c`, the link `c` found on the depth-1 page `b` is recorded in
the frontier counter (the release log shows `("b", 1)`) but `c` is never
fetched (the fetch trace is exactly `[("a", 0), ("b", 1)]`). -/
theorem claim2_depth_bound :
    (∀ (env : String → PageOutcome) (url : String) (m : Nat),
      ((crawl_links env url 0 m initState).1.fetched.all (fun p => decide (p.2 ≤ m))) = true) ∧
    (crawl_links envC2 "a" 0 1 initState).1.releases = [("a", 1), ("b", 1)] ∧
    (crawl_links envC2 "a" 0 1 initState).1.fetched = [("a", 0), ("b", 1)] := by
  refine ⟨?_, by decide, by decide⟩
  intro env url m
  rw [List.all_eq_true]
  intro p hp
  rw [decide_eq_true_eq]
  exact ((crawlGas_ext env (m + 1 - 0) url 0 m initState).1 (Inv_init m)).2.2 p hp

/-- Claim C3: the link filter accepts a resolved href iff some normalized
name occurs in the lowercased resolved href or in the lowercased anchor
text, and no block-list keyword occurs in the lowercased href; the result
is a set (duplicate-free, duplicates collapse).  Concretely, with names
`{"johnsmith"}`, `https://example.com/bio/johnsmith` is accepted and the
tweet-intent href is rejected. -/
theorem claim3_link_filter :
    (∀ (join : String → String → String) (anchors : List Anchor) (url : String)
        (names : List String) (l : String),
      l ∈ extract_and_filter_links join anchors url names ↔
        ∃ a, a ∈ anchors ∧ l = join url a.href ∧
          ((∃ n, n ∈ names ∧
              (SubstrP n (lowerStr (join url a.href)) ∨ SubstrP n (lowerStr (trimStr a.text)))) ∧
            (∀ k, k ∈ FILTER_KEYWORDS → ¬ SubstrP k (lowerStr (join url a.href))))) ∧
    (∀ (join : String → String → String) (anchors : List Anchor) (url : String)
        (names : List String), (extract_and_filter_links join anchors url names).Nodup) ∧
    extract_and_filter_links join0 [exAnchor1, exAnchor2] "https://example.com/" ["johnsmith"] =
      ["https://example.com/bio/johnsmith"] ∧
    extract_and_filter_links join0 [exAnchor1, exAnchor1] "https://example.com/" ["johnsmith"] =
      ["https://example.com/bio/johnsmith"] := by
  refine ⟨?_, ?_, by decide, by decide⟩
  · intro join anchors url names l
    unfold extract_and_filter_links
    rw [mem_extract_foldl]
    simp only [List.not_mem_nil, false_or]
    constructor
    · rintro ⟨a, ha, hacc, rfl⟩
      exact ⟨a, ha, rfl, (acceptLink_iff join url names a).mp hacc⟩
    · rintro ⟨a, ha, rfl, hcond⟩
      exact ⟨a, ha, (acceptLink_iff join url names a).mpr hcond, rfl⟩
  · intro join anchors url names
    exact nodup_extract_foldl join url names anchors [] List.nodup_nil

/-- Claim C4 (the code violates it): `process_page_content` raises for any
url the site-name regex of line 77 does not match — e.g. a host whose
first DNS label contains a hyphen — and the exception propagates through
`executor.map`/`asyncio.run` and aborts the whole crawl: with a root page
linking to `https://bad-host.com/x` and then a sibling, the exception flag
comes back `true` and the sibling is never fetched (it is absent from the
fetch trace). -/
theorem claim4_process_error_aborts :
    process_page_content detect0 join0 "https://my-site.com/a" (some ⟨[], []⟩) =
      Except.error () ∧
    crawl_links envC4 "https://root.com/" 0 1 initState =
      (⟨["https://bad-host.com/x", "https://root.com/"], 2, [("https://root.com/", "t")],
        [("https://root.com/", 0), ("https://bad-host.com/x", 1)],
        [("https://root.com/", 2)]⟩, true) :=
  ⟨rfl, by decide⟩

/-- Claim C5 (as stated, false — see `claim5_failed_fetch_omitted_cex`):
what does hold is that the pipeline returns one result per SUCCESSFUL
fetch, index-aligned with the subsequence of input urls whose fetch
succeeded; urls whose fetch fails are omitted from the result list. -/
theorem claim5_success_aligned :
    (∀ (detect : String → List String) (join : String → String → String)
        (net : String → Option Doc) (urls : List String),
      scrape_text_and_links detect join net urls =
        mapExcept (fun u => process_page_content detect join u (net u))
          (urls.filter (fun u => (net u).isSome))) ∧
    (∀ (detect : String → List String) (join : String → String → String)
        (net : String → Option Doc) (urls : List String)
        (rs : List (Option String × List String)),
      scrape_text_and_links detect join net urls = Except.ok rs →
        rs.length = (urls.filter (fun u => (net u).isSome)).length) := by
  refine ⟨scrape_eq, ?_⟩
  intro detect join net urls rs h
  rw [scrape_eq] at h
  exact mapExcept_ok_length h

/-- Claim C5, counterexample to the claim as stated: with one input url
whose fetch fails, the pipeline returns the empty list — no
null-text-and-empty-links entry for the failed attempt, the attempt is
omitted, and the result is not index-aligned with the input (lengths 0
vs 1). -/
theorem claim5_failed_fetch_omitted_cex :
    scrape_text_and_links detect0 join0 netFail ["https://a.com/"] = Except.ok [] ∧
    ([] : List (Option String × List String)).length ≠ ["https://a.com/"].length :=
  ⟨rfl, by decide⟩

/-- Claim C6: flattening joins a block's heading marker and paragraphs
with single newlines and blocks with one blank line; a level-k heading is
prefixed by k `#` characters (then a space, per `headers_tags`); the
H1/H2 example produces exactly the expected string. -/
theorem claim6_flatten :
    flatten_text (extract_structured_text
        [Elem.header 1 "Intro", Elem.para "P1", Elem.header 2 "Details", Elem.para "P2"]) =
      "# Intro\nP1\n\n## Details\nP2" ∧
    ((List.range 6).all
      (fun i => headerMark (i + 1) == String.mk (List.replicate (i + 1) '#') ++ " ")) = true ∧
    (∀ bs : List (String × List String),
      flatten_text bs =
        String.intercalate "\n\n" (bs.map (fun b => String.intercalate "\n" (b.1 :: b.2)))) :=
  ⟨by decide, by decide, fun _ => rfl⟩

/-- Claim C7, counterexample to the claim as stated: the name the code
removes is the regex's `base_url` capture, which is NOT always the first
DNS label after `www.` — on `https://www.jean-paul.com/bio` the capture
group `[a-zA-Z0-9]*` cannot match the hyphenated label, the optional
`(www\.)?` group backtracks, and the capture is `"www"`.  The first DNS
label after `www.` is `jean-paul`; the detected entity `"Jean-Paul"`
normalizes to `"jean-paul"`, stays in the name set, and the page's
self-link matched only by it is ACCEPTED, not rejected. -/
theorem claim7_hyphen_host_cex :
    siteName "https://www.jean-paul.com/bio" = some "www" ∧
    process_page_content detectJP join0 "https://www.jean-paul.com/bio" (some docJP) =
      Except.ok (some "# T\nAbout Jean-Paul", ["https://www.jean-paul.com/about"]) :=
  ⟨by decide, by rfl⟩

/-- Claim C7 as amended: what is removed from the normalized name set
before filtering is the site name the regex of line 77 captures (`sn`
with `siteName url = some sn`) — equal to the first DNS label after an
optional `www.` only when that label is a plain alphanumeric run
followed by a dot: whenever processing succeeds, the returned links are
exactly the filter's output over the normalized name set with `sn`
removed, and the removed name is genuinely absent from that set.  In
particular, for `https://smith.com/article` with detected entity
`"Smith"`, the capture is `smith`, the name set becomes empty, and a
link matched only by `smith` is rejected (no link survives). -/
theorem claim7_site_name_excluded :
    (∀ (detect : String → List String) (join : String → String → String)
        (url : String) (doc : Doc) (sn : String) (text : Option String)
        (links : List String),
      siteName url = some sn →
      process_page_content detect join url (some doc) = Except.ok (text, links) →
      links = extract_and_filter_links join doc.anchors url
        (exclude_site
          (normalized_names (detect (flatten_text (extract_structured_text doc.elements))))
          sn)) ∧
    (∀ (names : List String) (sn : String), sn ∉ exclude_site names sn) ∧
    siteName "https://smith.com/article" = some "smith" ∧
    process_page_content detect7 join0 "https://smith.com/article" (some doc7) =
      Except.ok (some "# T\nAbout Smith", []) := by
  refine ⟨?_, ?_, by decide, by rfl⟩
  · intro detect join url doc sn text links h1 h2
    unfold process_page_content at h2
    rw [h1] at h2
    simp only [Except.ok.injEq, Prod.mk.injEq] at h2
    exact h2.2.symm
  · intro names sn h
    simp [exclude_site, List.mem_filter] at h

/-- Claim C8: when `depth > maxDepth` or the url is already visited,
`crawl_links` returns immediately with the state unchanged (no fetch, no
counter change, no file saved) and no exception. -/
theorem claim8_guard_no_side_effects (env : String → PageOutcome) (url : String)
    (d m : Nat) (s : CrawlState) (h : d > m ∨ url ∈ s.visited) :
    crawl_links env url d m s = (s, false) :=
  crawl_links_guard h

/-- Claim C8 at a concrete input: depth 2 with `maxDepth = 1` returns the
initial state unchanged. -/
theorem claim8_guard_witness :
    crawl_links envW10 "zzz" 2 1 initState = (initState, false) :=
  claim8_guard_no_side_effects envW10 "zzz" 2 1 initState (Or.inl (by decide))

/-- Claim C9 (the code violates it): with the root page releasing 2 links
and no deeper links, the counter's net change over the returned call is
+1, not 0 — `links_remaining.release(len(links))` adds `len(links)` but
`links_remaining.acquire(len(links))` passes `len(links)` as the
`blocking` flag of `threading.Semaphore.acquire` and removes a single
permit. -/
theorem claim9_counter_not_restored :
    crawl_links envC9 "a" 0 1 initState =
      (⟨["c", "b", "a"], 1, [("a", "t"), ("b", "t"), ("c", "t")],
        [("a", 0), ("b", 1), ("c", 1)], [("a", 2)]⟩, false) := by
  decide

/-- Claim C10: when the fetch of an unvisited url within the depth bound
fails, the call marks the url visited (before the fetch), records the
fetch attempt, and returns with no file saved and no counter change; the
url stays visited, so any later crawl call on it returns the state
unchanged (never re-attempted). -/
theorem claim10_failed_fetch_visited (env : String → PageOutcome) (url : String)
    (d m : Nat) (s : CrawlState) (he : env url = PageOutcome.fetchFail) (hd : d ≤ m)
    (hv : url ∉ s.visited) :
    crawl_links env url d m s =
      ({ s with visited := url :: s.visited, fetched := s.fetched ++ [(url, d)] }, false) ∧
    url ∈ (crawl_links env url d m s).1.visited ∧
    (crawl_links env url d m s).1.counter = s.counter ∧
    (crawl_links env url d m s).1.savedFiles = s.savedFiles ∧
    (∀ d2 m2 : Nat,
      crawl_links env url d2 m2 (crawl_links env url d m s).1 =
        ((crawl_links env url d m s).1, false)) := by
  have hg : ¬(d > m ∨ url ∈ s.visited) := not_or.mpr ⟨by omega, hv⟩
  have key : crawl_links env url d m s = (visitMark url d s, false) := by
    unfold crawl_links
    obtain ⟨k, hk⟩ : ∃ k, m + 1 - d = k + 1 := ⟨m - d, by omega⟩
    rw [hk]
    exact crawlGas_fetchFail hg he
  refine ⟨key, ?_, ?_, ?_, ?_⟩
  · rw [key]
    exact List.mem_cons_self url s.visited
  · rw [key]
    rfl
  · rw [key]
    rfl
  · intro d2 m2
    rw [key]
    exact crawl_links_guard (Or.inr (List.mem_cons_self url s.visited))

/-- Claim C10 at a concrete input: a failing fetch of a fresh url at
depth 0 leaves only the visited mark and the fetch-attempt record. -/
theorem claim10_failed_fetch_visited_witness :
    crawl_links envW10 "https://a.com/" 0 1 initState =
      ({ initState with visited := ["https://a.com/"], fetched := [("https://a.com/", 0)] },
        false) :=
  (claim10_failed_fetch_visited envW10 "https://a.com/" 0 1 initState rfl (by decide)
    (by decide)).1

end WebCrawl
